import Mathlib

/-!
# Verification of the scheduler core

A shallow embedding of the scheduling conflict & availability core:
interval overlap arithmetic (`src/utils/schedule.ts`), the availability
resolver and slot-lock rules (`src/domain/schedulerRules.ts`), the
appointment lifecycle table, the optimistic-concurrency store commands
(`src/api/localSchedulerApi.ts`), and the conflict detector
(`src/utils/schedule.ts`).

Modelling conventions:
* ISO timestamps become absolute minutes (`Int`); the JS `Date` is linear
  time, so `getTime` order is minute order, `getDay` is
  `(t / 1440) % 7`, minutes-since-midnight is `t % 1440`, and the ISO
  date part is the day index `t / 1440` (Euclidean div/mod keep these in
  range for negative instants, matching a fixed-offset calendar).
* `HH:mm` working-hour strings become minute-of-day values; `YYYY-MM-DD`
  date strings become day indices.
* Field names that are Lean keywords are quoted (`«end»`, `«at»`, `«by»`,
  `«from»`, `«to»`).
* The store's `localStorage` read/write becomes explicit state passing:
  every command maps the stored state to a result together with the state
  that is persisted after the call; a `throw` in the source happens before
  `writeState`, so the error branches return the input state unchanged.
* The clock (`nowIso`) and the generated id (`randomId`) are injected as
  arguments.
-/

inductive StaffRole
  | pt | ot | speech
  deriving DecidableEq, Repr

inductive AppointmentType
  | evaluation | followup
  deriving DecidableEq, Repr

/-- Lifecycle states `scheduled`, `check-in`, `in-progress`, `completed`,
`incomplete` from `src/types.ts`. -/
inductive AppointmentStatus
  | scheduled | checkIn | inProgress | completed | incomplete
  deriving DecidableEq, Repr

inductive AppointmentMode
  | inClinic | telephonic
  deriving DecidableEq, Repr

inductive AuditKind
  | created | rescheduled | cancelled | statusChange
  deriving DecidableEq, Repr

/-- The `from`/`to` payload of an audit event. -/
structure AuditWindow where
  start : Option Int := none
  «end» : Option Int := none
  status : Option AppointmentStatus := none
  deriving DecidableEq, Repr

/-- `AppointmentAuditEvent` from `src/types.ts`. -/
structure AuditEvent where
  «at» : Int
  «by» : String
  type : AuditKind
  «from» : Option AuditWindow := none
  «to» : Option AuditWindow := none
  note : Option String := none
  deriving DecidableEq, Repr

/-- `WorkingHours` from `src/types.ts`: minute-of-day window plus active
weekdays (0 = Sunday). -/
structure WorkingHours where
  start : Int
  «end» : Int
  days : List Int
  deriving DecidableEq, Repr

/-- `Therapist` from `src/types.ts`. -/
structure Therapist where
  id : String
  name : String
  role : StaffRole
  clinicId : String
  workingHours : WorkingHours
  deriving DecidableEq, Repr

/-- `Appointment` from `src/types.ts`; timestamps are absolute minutes. -/
structure Appointment where
  id : String
  clinicId : String
  therapistId : String
  patient : String
  start : Int
  «end» : Int
  type : AppointmentType
  mode : AppointmentMode
  status : AppointmentStatus
  createdBy : String
  updatedAt : Int
  cancelledAt : Option Int := none
  cancelledBy : Option String := none
  audit : List AuditEvent
  deriving DecidableEq, Repr

/-- `SlotLock` from `src/types.ts`; `reason` is always `"booked"`. -/
structure SlotLock where
  id : String
  therapistId : String
  start : Int
  «end» : Int
  lockedBy : String
  reason : String
  deriving DecidableEq, Repr

/-- `TimeAway` from `src/types.ts`: `date` is a day index, `start`/`end`
are minute-of-day values. -/
structure TimeAway where
  id : String
  therapistId : String
  date : Int
  start : Int
  «end» : Int
  reason : String
  deriving DecidableEq, Repr

/-- `AvailabilityContext` from `src/domain/schedulerRules.ts`. -/
structure AvailabilityContext where
  therapists : List Therapist
  timeAway : List TimeAway
  deriving DecidableEq, Repr

instance {ε α : Type} [DecidableEq ε] [DecidableEq α] : DecidableEq (Except ε α) :=
  fun x y =>
    match x, y with
    | .ok a, .ok b =>
      if h : a = b then .isTrue (by rw [h]) else .isFalse (fun he => h (Except.ok.inj he))
    | .error a, .error b =>
      if h : a = b then .isTrue (by rw [h]) else .isFalse (fun he => h (Except.error.inj he))
    | .ok _, .error _ => .isFalse (fun he => Except.noConfusion he)
    | .error _, .ok _ => .isFalse (fun he => Except.noConfusion he)

/-- Minutes per day, the granularity of the linear calendar. -/
def minutesPerDay : Int := 1440

/-- `Date.prototype.getDay` under the linear calendar. -/
def weekdayOf (t : Int) : Int := (t.ediv minutesPerDay).emod 7

/-- `getHours() * 60 + getMinutes()` under the linear calendar. -/
def minutesSinceMidnight (t : Int) : Int := t.emod minutesPerDay

/-- `toISOString().split('T')[0]` under the linear calendar: the day index. -/
def dateIndexOf (t : Int) : Int := t.ediv minutesPerDay

/-- The instant of minute-of-day `m` on day `day`: parses
`` `${day}T${HH:mm}:00` ``. -/
def atDay (day m : Int) : Int := day * minutesPerDay + m

/-- `overlaps` from `src/utils/schedule.ts`: half-open interval test. -/
def overlaps (startA endA startB endB : Int) : Bool :=
  startA < endB && endA > startB

/-- `isCancelled` from `src/domain/schedulerRules.ts`. -/
def isCancelled (a : Appointment) : Bool := a.cancelledAt.isSome

/-- The lock literal built by `getLocksForRange` / `buildLocks` for one
appointment. -/
def mkLock (a : Appointment) : SlotLock :=
  { id := "lock_" ++ a.id
    therapistId := a.therapistId
    start := a.start
    «end» := a.«end»
    lockedBy := a.createdBy
    reason := "booked" }

/-- `getLocksForRange` from `src/domain/schedulerRules.ts`: one lock per
non-cancelled appointment not created by `clientId`. -/
def getLocksForRange (appointments : List Appointment) (clientId : String) : List SlotLock :=
  ((appointments.filter (fun a => !a.cancelledAt.isSome)).filter
      (fun a => a.createdBy != clientId)).map mkLock

/-- `buildLocks` from `src/api/localSchedulerApi.ts` (same body as
`getLocksForRange`). -/
def buildLocks (appointments : List Appointment) (clientId : String) : List SlotLock :=
  ((appointments.filter (fun a => !a.cancelledAt.isSome)).filter
      (fun a => a.createdBy != clientId)).map mkLock

/-- `slotOverlapsLocks` from `src/domain/schedulerRules.ts`. -/
def slotOverlapsLocks (therapistId : String) (start «end» : Int)
    (locks : List SlotLock) : Bool :=
  locks.any fun lock =>
    lock.therapistId == therapistId && overlaps start «end» lock.start lock.«end»

/-- `hasAppointmentOverlap` from `src/domain/schedulerRules.ts`. The
`ignoreAppointmentId && a.id === ignoreAppointmentId` guard is truthiness
on a string: an absent or empty ignore id excludes nothing. -/
def hasAppointmentOverlap (appointments : List Appointment) (therapistId : String)
    (start «end» : Int) (ignoreAppointmentId : Option String) : Bool :=
  appointments.any fun a =>
    !a.cancelledAt.isSome && a.therapistId == therapistId &&
      !(match ignoreAppointmentId with
        | some iid => !(iid == "") && a.id == iid
        | none => false) &&
      overlaps start «end» a.start a.«end»

/-- `withinTherapistWorkingHours` from `src/domain/schedulerRules.ts`. -/
def withinTherapistWorkingHours (therapist : Therapist) (start «end» : Int) : Bool :=
  therapist.workingHours.days.contains (weekdayOf start) &&
    minutesSinceMidnight start ≥ therapist.workingHours.start &&
    minutesSinceMidnight «end» ≤ therapist.workingHours.«end»

/-- `hasTimeAwayConflict` from `src/domain/schedulerRules.ts`: only
time-away slots dated on `start`'s day are considered. -/
def hasTimeAwayConflict (therapistId : String) (start «end» : Int)
    (away : List TimeAway) : Bool :=
  let day := dateIndexOf start
  away.any fun slot =>
    slot.therapistId == therapistId && slot.date == day &&
      overlaps start «end» (atDay day slot.start) (atDay day slot.«end»)

/-- The structured decision value returned by `canScheduleWindow`:
`{ ok: true }` or `{ ok: false, reason }`. -/
inductive ScheduleDecision
  | ok
  | fail (reason : String)
  deriving DecidableEq, Repr

/-- `canScheduleWindow` from `src/domain/schedulerRules.ts`: the pre-flight
window-eligibility validator. It is a total function — it returns a
decision value and never throws. -/
def canScheduleWindow (therapistId : String) (start «end» : Int)
    (appointments : List Appointment) (locks : List SlotLock)
    (context : AvailabilityContext) (ignoreAppointmentId : Option String) :
    ScheduleDecision :=
  match context.therapists.find? (fun t => t.id == therapistId) with
  | none => .fail "Therapist not found"
  | some therapist =>
    if !withinTherapistWorkingHours therapist start «end» then
      .fail "Outside working hours"
    else if hasTimeAwayConflict therapistId start «end» context.timeAway then
      .fail "Time off"
    else if slotOverlapsLocks therapistId start «end» locks then
      .fail "Slot locked by another user"
    else if hasAppointmentOverlap appointments therapistId start «end» ignoreAppointmentId then
      .fail "Overlapping appointment"
    else
      .ok

/-- `nextAllowedStatuses` from `src/domain/schedulerRules.ts`: the
lifecycle transition table. -/
def nextAllowedStatuses : AppointmentStatus → List AppointmentStatus
  | .scheduled => [.checkIn, .inProgress, .completed, .incomplete]
  | .checkIn => [.inProgress, .completed, .incomplete]
  | .inProgress => [.completed, .incomplete]
  | .completed => []
  | .incomplete => []

/-- `CreateAppointmentInput` from `src/api/schedulerApi.ts`. -/
structure CreateAppointmentInput where
  clinicId : String
  therapistId : String
  patient : String
  start : Int
  «end» : Int
  type : AppointmentType
  mode : AppointmentMode
  deriving DecidableEq, Repr

/-- `StoredSchedulerState` from `src/api/localSchedulerApi.ts`. -/
structure StoredSchedulerState where
  version : Nat
  updatedAt : Int
  appointments : List Appointment
  deriving DecidableEq, Repr

/-- The `Error` values thrown by the store commands, by message:
`notFound` = "Appointment not found", `ownershipViolation` =
"Appointment is locked by another user", `alreadyCancelled` =
"Appointment is cancelled", `overlapConflict` =
"Overlapping booking for this resource". -/
inductive StoreError
  | notFound | ownershipViolation | alreadyCancelled | overlapConflict
  deriving DecidableEq, Repr

/-- `findAppointmentOrThrow` from `src/api/localSchedulerApi.ts`, with the
throw made explicit as `Option`: the first appointment with the given id. -/
def findAppointment (appointments : List Appointment) (id : String) : Option Appointment :=
  appointments.find? (fun a => a.id == id)

/-- `assertOwnedOrThrow` from `src/api/localSchedulerApi.ts`: ownership is
checked before the already-cancelled check. -/
def assertOwned (appt : Appointment) (clientId : String) : Option StoreError :=
  if appt.createdBy != clientId then some .ownershipViolation
  else if appt.cancelledAt.isSome then some .alreadyCancelled
  else none

/-- The overlap test of `assertNoOverlapOrThrow` from
`src/api/localSchedulerApi.ts`: some other non-cancelled appointment with
the candidate's resource id, excluding the candidate's own id, overlaps
the candidate's window. -/
def hasOverlapConflict (appointments : List Appointment) (candidate : Appointment) : Bool :=
  appointments.any fun a =>
    !a.cancelledAt.isSome && !(a.id == candidate.id) &&
      a.therapistId == candidate.therapistId &&
      overlaps candidate.start candidate.«end» a.start a.«end»

/-- The new record built by `createAppointment` (clock value `now` and
generated id `newId` injected). -/
def createCandidate (clientId newId : String) (now : Int)
    (input : CreateAppointmentInput) : Appointment :=
  { id := newId
    clinicId := input.clinicId
    therapistId := input.therapistId
    patient := input.patient
    start := input.start
    «end» := input.«end»
    type := input.type
    mode := input.mode
    status := .scheduled
    createdBy := clientId
    updatedAt := now
    cancelledAt := none
    cancelledBy := none
    audit := [{ «at» := now, «by» := clientId, type := .created,
                «to» := some { start := some input.start, «end» := some input.«end»,
                               status := some .scheduled } }] }

/-- The candidate record built by `rescheduleAppointment`. -/
def rescheduleCandidate (current : Appointment) (clientId : String) (now : Int)
    (start «end» : Int) : Appointment :=
  { current with
    start := start
    «end» := «end»
    updatedAt := now
    audit := current.audit ++
      [{ «at» := now, «by» := clientId, type := .rescheduled,
         «from» := some { start := some current.start, «end» := some current.«end» },
         «to» := some { start := some start, «end» := some «end» } }] }

/-- The candidate record built by `reassignAppointment`. -/
def reassignCandidate (current : Appointment) (clientId : String) (now : Int)
    (therapistId : String) : Appointment :=
  { current with
    therapistId := therapistId
    updatedAt := now
    audit := current.audit ++
      [{ «at» := now, «by» := clientId, type := .rescheduled,
         note := some ("reassigned:" ++ current.therapistId ++ "->" ++ therapistId) }] }

/-- The candidate record built by `updateAppointmentStatus`. -/
def statusCandidate (current : Appointment) (clientId : String) (now : Int)
    (status : AppointmentStatus) : Appointment :=
  { current with
    status := status
    updatedAt := now
    audit := current.audit ++
      [{ «at» := now, «by» := clientId, type := .statusChange,
         «from» := some { status := some current.status },
         «to» := some { status := some status } }] }

/-- The candidate record built by `cancelAppointment`. -/
def cancelCandidate (current : Appointment) (clientId : String) (now : Int) :
    Appointment :=
  { current with
    cancelledAt := some now
    cancelledBy := some clientId
    updatedAt := now
    audit := current.audit ++
      [{ «at» := now, «by» := clientId, type := .cancelled }] }

/-- `createAppointment` from `src/api/localSchedulerApi.ts`. The second
component is the persisted state after the call; the throw happens before
`writeState`, so on error it is the input state. -/
def createAppointment (state : StoredSchedulerState) (clientId newId : String)
    (now : Int) (input : CreateAppointmentInput) :
    Except StoreError Appointment × StoredSchedulerState :=
  let appt := createCandidate clientId newId now input
  if hasOverlapConflict state.appointments appt then
    (.error .overlapConflict, state)
  else
    (.ok appt,
     { version := state.version + 1
       updatedAt := now
       appointments := state.appointments ++ [appt] })

/-- `rescheduleAppointment` from `src/api/localSchedulerApi.ts`. -/
def rescheduleAppointment (state : StoredSchedulerState) (clientId : String)
    (now : Int) (id : String) (start «end» : Int) :
    Except StoreError Appointment × StoredSchedulerState :=
  match findAppointment state.appointments id with
  | none => (.error .notFound, state)
  | some current =>
    match assertOwned current clientId with
    | some e => (.error e, state)
    | none =>
      let nextAppt := rescheduleCandidate current clientId now start «end»
      if hasOverlapConflict state.appointments nextAppt then
        (.error .overlapConflict, state)
      else
        (.ok nextAppt,
         { version := state.version + 1
           updatedAt := now
           appointments := state.appointments.map (fun a => if a.id == id then nextAppt else a) })

/-- `reassignAppointment` from `src/api/localSchedulerApi.ts`. -/
def reassignAppointment (state : StoredSchedulerState) (clientId : String)
    (now : Int) (id therapistId : String) :
    Except StoreError Appointment × StoredSchedulerState :=
  match findAppointment state.appointments id with
  | none => (.error .notFound, state)
  | some current =>
    match assertOwned current clientId with
    | some e => (.error e, state)
    | none =>
      let nextAppt := reassignCandidate current clientId now therapistId
      if hasOverlapConflict state.appointments nextAppt then
        (.error .overlapConflict, state)
      else
        (.ok nextAppt,
         { version := state.version + 1
           updatedAt := now
           appointments := state.appointments.map (fun a => if a.id == id then nextAppt else a) })

/-- `updateAppointmentStatus` from `src/api/localSchedulerApi.ts`. Note:
the source never consults `nextAllowedStatuses`; any requested status is
applied once the find/ownership/cancelled checks pass. -/
def updateAppointmentStatus (state : StoredSchedulerState) (clientId : String)
    (now : Int) (id : String) (status : AppointmentStatus) :
    Except StoreError Appointment × StoredSchedulerState :=
  match findAppointment state.appointments id with
  | none => (.error .notFound, state)
  | some current =>
    match assertOwned current clientId with
    | some e => (.error e, state)
    | none =>
      let nextAppt := statusCandidate current clientId now status
      (.ok nextAppt,
       { version := state.version + 1
         updatedAt := now
         appointments := state.appointments.map (fun a => if a.id == id then nextAppt else a) })

/-- `cancelAppointment` from `src/api/localSchedulerApi.ts`. -/
def cancelAppointment (state : StoredSchedulerState) (clientId : String)
    (now : Int) (id : String) :
    Except StoreError Appointment × StoredSchedulerState :=
  match findAppointment state.appointments id with
  | none => (.error .notFound, state)
  | some current =>
    match assertOwned current clientId with
    | some e => (.error e, state)
    | none =>
      let nextAppt := cancelCandidate current clientId now
      (.ok nextAppt,
       { version := state.version + 1
         updatedAt := now
         appointments := state.appointments.map (fun a => if a.id == id then nextAppt else a) })

/-- The sort order of `detectConflicts`
(`(a, b) => parseISO(a.start).getTime() - parseISO(b.start).getTime()`):
ascending start time. -/
def apptLe (a b : Appointment) : Prop := a.start ≤ b.start

instance : DecidableRel apptLe := fun a b => by unfold apptLe; infer_instance

instance : IsTotal Appointment apptLe := ⟨fun a b => le_total a.start b.start⟩

instance : IsTrans Appointment apptLe := ⟨fun _ _ _ h1 h2 => le_trans h1 h2⟩

/-- The adjacent-pair scan of `detectConflicts`: for each adjacent pair in
the (sorted) list that overlaps, flag both members' ids. -/
def adjacentConflicts : List Appointment → List String
  | current :: next :: rest =>
    (if overlaps current.start current.«end» next.start next.«end» then
      [current.id, next.id]
    else []) ++ adjacentConflicts (next :: rest)
  | _ => []

/-- `detectConflicts` from `src/utils/schedule.ts`: group non-cancelled
appointments by therapist id (each group keeps the original relative
order), sort each group by start, scan adjacent pairs. The set of group
keys is the deduplicated therapist-id list and the JS `Set` of flagged
ids is a list: both are read up to membership, so the key iteration
order is irrelevant. -/
def detectConflicts (appts : List Appointment) : List String :=
  let active := appts.filter (fun a => !a.cancelledAt.isSome)
  ((active.map (·.therapistId)).dedup).flatMap fun tid =>
    adjacentConflicts
      (List.insertionSort apptLe (active.filter (fun a => a.therapistId == tid)))

/-- The mock therapist reference data from `src/mockData.ts` (working-hour
strings converted to minute-of-day). -/
def therapists : List Therapist :=
  [ { id := "t1", name := "Alex Morgan", role := .pt, clinicId := "c1",
      workingHours := { start := 480, «end» := 960, days := [1, 2, 3, 4, 5] } },
    { id := "t2", name := "Priya Desai", role := .pt, clinicId := "c2",
      workingHours := { start := 540, «end» := 1020, days := [1, 2, 3, 4, 5] } },
    { id := "t3", name := "Sofia Bennett", role := .ot, clinicId := "c3",
      workingHours := { start := 600, «end» := 1080, days := [1, 2, 3, 4, 5] } },
    { id := "t4", name := "Marcus Lee", role := .speech, clinicId := "c1",
      workingHours := { start := 480, «end» := 900, days := [1, 2, 3, 4, 5] } },
    { id := "t5", name := "Jamie Flores", role := .pt, clinicId := "c3",
      workingHours := { start := 420, «end» := 720, days := [1, 2, 3, 4, 5] } } ]

/-- The global no-overlap invariant (spec §8): no two non-cancelled
appointments (distinguished by id) with the same resource id overlap. -/
def NoOverlapInv (appts : List Appointment) : Prop :=
  ∀ x ∈ appts, ∀ y ∈ appts, x.id ≠ y.id → x.cancelledAt = none →
    y.cancelledAt = none → x.therapistId = y.therapistId →
    overlaps x.start x.«end» y.start y.«end» = false

instance (appts : List Appointment) : Decidable (NoOverlapInv appts) := by
  unfold NoOverlapInv; infer_instance

/-- The audit invariant (spec §8): every appointment's trail starts with a
`created` event. -/
def FirstAuditCreated (appts : List Appointment) : Prop :=
  ∀ a ∈ appts, a.audit.head?.map (·.type) = some .created

instance (appts : List Appointment) : Decidable (FirstAuditCreated appts) := by
  unfold FirstAuditCreated; infer_instance

/-! Concrete fixtures used by witnesses and counterexamples: one
appointment on resource `t1`, 09:00–10:00 on day 1 (a weekday), owned by
session `alice`, with a well-formed `created` audit entry; a second,
already-cancelled appointment owned by `alice`; and a store state holding
them. -/

def wAppt : Appointment :=
  { id := "a1", clinicId := "c1", therapistId := "t1", patient := "D. Carter",
    start := 1980, «end» := 2040, type := .evaluation, mode := .inClinic,
    status := .scheduled, createdBy := "alice", updatedAt := 0,
    audit := [{ «at» := 0, «by» := "alice", type := .created,
                «to» := some { start := some 1980, «end» := some 2040,
                               status := some .scheduled } }] }

def wCancelled : Appointment :=
  { id := "a2", clinicId := "c1", therapistId := "t1", patient := "R. Patel",
    start := 2100, «end» := 2160, type := .followup, mode := .inClinic,
    status := .scheduled, createdBy := "alice", updatedAt := 5,
    cancelledAt := some 5, cancelledBy := some "alice",
    audit := [{ «at» := 1, «by» := "alice", type := .created,
                «to» := some { start := some 2100, «end» := some 2160,
                               status := some .scheduled } },
              { «at» := 5, «by» := "alice", type := .cancelled }] }

def wCompleted : Appointment :=
  { id := "a3", clinicId := "c1", therapistId := "t4", patient := "A. Kim",
    start := 2400, «end» := 2460, type := .evaluation, mode := .inClinic,
    status := .completed, createdBy := "alice", updatedAt := 7,
    audit := [{ «at» := 2, «by» := "alice", type := .created,
                «to» := some { start := some 2400, «end» := some 2460,
                               status := some .scheduled } },
              { «at» := 7, «by» := "alice", type := .statusChange,
                «from» := some { status := some .inProgress },
                «to» := some { status := some .completed } }] }

def wState : StoredSchedulerState :=
  { version := 1, updatedAt := 5, appointments := [wAppt, wCancelled, wCompleted] }

/-- A create request that does not conflict with anything in `wState`. -/
def wInputFree : CreateAppointmentInput :=
  { clinicId := "c1", therapistId := "t1", patient := "M. Young",
    start := 2220, «end» := 2280, type := .followup, mode := .inClinic }

/-- A create request overlapping `wAppt` on the same resource. -/
def wInputClash : CreateAppointmentInput :=
  { clinicId := "c1", therapistId := "t1", patient := "L. Brooks",
    start := 2010, «end» := 2070, type := .followup, mode := .inClinic }

/-- A create request naming a resource id absent from the mock therapist
list. -/
def wInputGhost : CreateAppointmentInput :=
  { clinicId := "c1", therapistId := "t9", patient := "S. Hill",
    start := 2220, «end» := 2280, type := .followup, mode := .inClinic }

/-! Fixtures for the conflict-detector counterexample: three non-cancelled
appointments on `t1`; the first spans the other two, the second overlaps
the first, the third touches neither adjacent neighbour but does overlap
the first. -/

def cApptA : Appointment :=
  { id := "k1", clinicId := "c1", therapistId := "t1", patient := "P1",
    start := 1000, «end» := 1100, type := .evaluation, mode := .inClinic,
    status := .scheduled, createdBy := "seed", updatedAt := 0,
    audit := [{ «at» := 0, «by» := "seed", type := .created }] }

def cApptB : Appointment :=
  { id := "k2", clinicId := "c1", therapistId := "t1", patient := "P2",
    start := 1001, «end» := 1002, type := .evaluation, mode := .inClinic,
    status := .scheduled, createdBy := "seed", updatedAt := 0,
    audit := [{ «at» := 0, «by» := "seed", type := .created }] }

def cApptC : Appointment :=
  { id := "k3", clinicId := "c1", therapistId := "t1", patient := "P3",
    start := 1003, «end» := 1004, type := .evaluation, mode := .inClinic,
    status := .scheduled, createdBy := "seed", updatedAt := 0,
    audit := [{ «at» := 0, «by» := "seed", type := .created }] }

/-! ## Helper lemmas -/

theorem overlaps_iff (a b c d : Int) : overlaps a b c d = true ↔ a < d ∧ b > c := by
  simp [overlaps]

theorem overlaps_comm (a b c d : Int) : overlaps a b c d = overlaps c d a b := by
  rw [Bool.eq_iff_iff, overlaps_iff, overlaps_iff]
  omega

theorem findAppointment_id {appts : List Appointment} {id : String} {cur : Appointment}
    (h : findAppointment appts id = some cur) : cur.id = id := by
  have := List.find?_some h
  simpa using this

theorem findAppointment_mem {appts : List Appointment} {id : String} {cur : Appointment}
    (h : findAppointment appts id = some cur) : cur ∈ appts :=
  List.mem_of_find?_eq_some h

theorem assertOwned_eq_none {cur : Appointment} {clientId : String}
    (h : assertOwned cur clientId = none) :
    cur.createdBy = clientId ∧ cur.cancelledAt = none := by
  unfold assertOwned at h
  split at h
  · exact absurd h (by simp)
  · split at h
    · exact absurd h (by simp)
    · next h1 h2 =>
      refine ⟨by simpa using h1, ?_⟩
      cases hc : cur.cancelledAt with
      | none => rfl
      | some t => rw [hc] at h2; simp at h2

theorem assertOwned_of_checks {cur : Appointment} {clientId : String}
    (h1 : cur.createdBy = clientId) (h2 : cur.cancelledAt = none) :
    assertOwned cur clientId = none := by
  unfold assertOwned
  simp [h1, h2]

/-- Reading `hasOverlapConflict ... = false` pointwise. -/
theorem not_conflict_spec {old : List Appointment} {cand : Appointment}
    (h : hasOverlapConflict old cand = false) :
    ∀ b ∈ old, b.cancelledAt = none → b.id ≠ cand.id →
      b.therapistId = cand.therapistId →
      overlaps cand.start cand.«end» b.start b.«end» = false := by
  intro b hb hbc hbid hbt
  unfold hasOverlapConflict at h
  rw [List.any_eq_false] at h
  have hb' := h b hb
  simpa [hbc, hbid, hbt] using hb'

/-- Appending a conflict-checked record preserves the no-overlap
invariant (the `createAppointment` commit shape). -/
theorem noOverlapInv_append {old : List Appointment} {cand : Appointment}
    (hinv : NoOverlapInv old)
    (hconf : hasOverlapConflict old cand = false) :
    NoOverlapInv (old ++ [cand]) := by
  intro x hx y hy hxy hxc hyc hxt
  rw [List.mem_append, List.mem_singleton] at hx hy
  rcases hx with hx | hx <;> rcases hy with hy | hy
  · exact hinv x hx y hy hxy hxc hyc hxt
  · subst hy
    rw [overlaps_comm]
    exact not_conflict_spec hconf x hx hxc hxy hxt
  · subst hx
    exact not_conflict_spec hconf y hy hyc (Ne.symm hxy) hxt.symm
  · subst hx; subst hy; exact absurd rfl hxy

/-- Replacing the record with the candidate's id by a conflict-checked
candidate preserves the no-overlap invariant (the reschedule / reassign
commit shape). -/
theorem noOverlapInv_replace {old : List Appointment} {cand : Appointment} {id : String}
    (hinv : NoOverlapInv old)
    (hconf : hasOverlapConflict old cand = false) :
    NoOverlapInv (old.map (fun a => if a.id == id then cand else a)) := by
  intro x hx y hy hxy hxc hyc hxt
  rw [List.mem_map] at hx hy
  obtain ⟨ax, hax, hx⟩ := hx
  obtain ⟨ay, hay, hy⟩ := hy
  by_cases hxcand : ax.id = id <;> by_cases hycand : ay.id = id <;>
    simp only [hxcand, hycand, beq_self_eq_true, if_true, beq_iff_eq, if_neg,
      if_false, reduceIte] at hx hy
  · subst hx; subst hy; exact absurd rfl hxy
  · subst hx; subst hy
    exact not_conflict_spec hconf ay hay hyc (Ne.symm hxy) hxt.symm
  · subst hx; subst hy
    rw [overlaps_comm]
    exact not_conflict_spec hconf ax hax hxc hxy hxt
  · subst hx; subst hy
    exact hinv ax hax ay hay hxy hxc hyc hxt

/-! ## Claim theorems -/

/-- C1: for every successful mutating command among `createAppointment`,
`rescheduleAppointment` and `reassignAppointment`, the committed
appointment list satisfies the global no-overlap invariant, provided the
invariant held before the command; and a create / reschedule / reassign
whose candidate record overlaps any other non-cancelled appointment for
the (possibly new) resource id, excluding the record's own id, fails with
the overlap error. -/
theorem mutating_commands_enforce_no_overlap
    (state : StoredSchedulerState) (clientId newId : String) (now : Int)
    (input : CreateAppointmentInput) (id tid : String) (s e : Int)
    (hinv : NoOverlapInv state.appointments) :
    (∀ r s', createAppointment state clientId newId now input = (.ok r, s') →
      NoOverlapInv s'.appointments)
    ∧ (∀ r s', rescheduleAppointment state clientId now id s e = (.ok r, s') →
      NoOverlapInv s'.appointments)
    ∧ (∀ r s', reassignAppointment state clientId now id tid = (.ok r, s') →
      NoOverlapInv s'.appointments)
    ∧ (hasOverlapConflict state.appointments
        (createCandidate clientId newId now input) = true →
      createAppointment state clientId newId now input = (.error .overlapConflict, state))
    ∧ (∀ cur, findAppointment state.appointments id = some cur →
      assertOwned cur clientId = none →
      hasOverlapConflict state.appointments
        (rescheduleCandidate cur clientId now s e) = true →
      rescheduleAppointment state clientId now id s e = (.error .overlapConflict, state))
    ∧ (∀ cur, findAppointment state.appointments id = some cur →
      assertOwned cur clientId = none →
      hasOverlapConflict state.appointments
        (reassignCandidate cur clientId now tid) = true →
      reassignAppointment state clientId now id tid = (.error .overlapConflict, state)) := by
  refine ⟨?_, ?_, ?_, ?_, ?_, ?_⟩
  · intro r s' h
    by_cases hconf : hasOverlapConflict state.appointments
      (createCandidate clientId newId now input) = true
    · simp [createAppointment, hconf] at h
    · rw [Bool.not_eq_true] at hconf
      simp only [createAppointment, hconf, Bool.false_eq_true, if_false,
        Prod.mk.injEq] at h
      obtain ⟨h1, h2⟩ := h
      subst h2
      exact noOverlapInv_append hinv hconf
  · intro r s' h
    cases hfind : findAppointment state.appointments id with
    | none => simp [rescheduleAppointment, hfind] at h
    | some cur =>
      cases hown : assertOwned cur clientId with
      | some err => simp [rescheduleAppointment, hfind, hown] at h
      | none =>
        by_cases hconf : hasOverlapConflict state.appointments
          (rescheduleCandidate cur clientId now s e) = true
        · simp [rescheduleAppointment, hfind, hown, hconf] at h
        · rw [Bool.not_eq_true] at hconf
          simp only [rescheduleAppointment, hfind, hown, hconf, Bool.false_eq_true,
            if_false, Prod.mk.injEq] at h
          obtain ⟨h1, h2⟩ := h
          subst h2
          exact noOverlapInv_replace hinv hconf
  · intro r s' h
    cases hfind : findAppointment state.appointments id with
    | none => simp [reassignAppointment, hfind] at h
    | some cur =>
      cases hown : assertOwned cur clientId with
      | some err => simp [reassignAppointment, hfind, hown] at h
      | none =>
        by_cases hconf : hasOverlapConflict state.appointments
          (reassignCandidate cur clientId now tid) = true
        · simp [reassignAppointment, hfind, hown, hconf] at h
        · rw [Bool.not_eq_true] at hconf
          simp only [reassignAppointment, hfind, hown, hconf, Bool.false_eq_true,
            if_false, Prod.mk.injEq] at h
          obtain ⟨h1, h2⟩ := h
          subst h2
          exact noOverlapInv_replace hinv hconf
  · intro hconf
    simp [createAppointment, hconf]
  · intro cur hfind hown hconf
    simp [rescheduleAppointment, hfind, hown, hconf]
  · intro cur hfind hown hconf
    simp [reassignAppointment, hfind, hown, hconf]

/-- C2: every mutating store command is atomic on failure — whenever the
result is an error (NotFound, OwnershipViolation, AlreadyCancelled or
OverlapConflict), the persisted state (version, updatedAt and the whole
appointment list, audit trails included) is exactly the state before the
attempt. -/
theorem failed_commands_change_nothing
    (state : StoredSchedulerState) (clientId newId : String) (now : Int)
    (input : CreateAppointmentInput) (id tid : String) (s e : Int)
    (status : AppointmentStatus) (err : StoreError) :
    ((createAppointment state clientId newId now input).1 = .error err →
      (createAppointment state clientId newId now input).2 = state)
    ∧ ((rescheduleAppointment state clientId now id s e).1 = .error err →
      (rescheduleAppointment state clientId now id s e).2 = state)
    ∧ ((reassignAppointment state clientId now id tid).1 = .error err →
      (reassignAppointment state clientId now id tid).2 = state)
    ∧ ((updateAppointmentStatus state clientId now id status).1 = .error err →
      (updateAppointmentStatus state clientId now id status).2 = state)
    ∧ ((cancelAppointment state clientId now id).1 = .error err →
      (cancelAppointment state clientId now id).2 = state) := by
  refine ⟨?_, ?_, ?_, ?_, ?_⟩
  · intro h
    by_cases hconf : hasOverlapConflict state.appointments
      (createCandidate clientId newId now input) = true
    · simp [createAppointment, hconf]
    · rw [Bool.not_eq_true] at hconf
      simp [createAppointment, hconf] at h
  · intro h
    cases hfind : findAppointment state.appointments id with
    | none => simp [rescheduleAppointment, hfind]
    | some cur =>
      cases hown : assertOwned cur clientId with
      | some e2 => simp [rescheduleAppointment, hfind, hown]
      | none =>
        by_cases hconf : hasOverlapConflict state.appointments
          (rescheduleCandidate cur clientId now s e) = true
        · simp [rescheduleAppointment, hfind, hown, hconf]
        · rw [Bool.not_eq_true] at hconf
          simp [rescheduleAppointment, hfind, hown, hconf] at h
  · intro h
    cases hfind : findAppointment state.appointments id with
    | none => simp [reassignAppointment, hfind]
    | some cur =>
      cases hown : assertOwned cur clientId with
      | some e2 => simp [reassignAppointment, hfind, hown]
      | none =>
        by_cases hconf : hasOverlapConflict state.appointments
          (reassignCandidate cur clientId now tid) = true
        · simp [reassignAppointment, hfind, hown, hconf]
        · rw [Bool.not_eq_true] at hconf
          simp [reassignAppointment, hfind, hown, hconf] at h
  · intro h
    cases hfind : findAppointment state.appointments id with
    | none => simp [updateAppointmentStatus, hfind]
    | some cur =>
      cases hown : assertOwned cur clientId with
      | some e2 => simp [updateAppointmentStatus, hfind, hown]
      | none => simp [updateAppointmentStatus, hfind, hown] at h
  · intro h
    cases hfind : findAppointment state.appointments id with
    | none => simp [cancelAppointment, hfind]
    | some cur =>
      cases hown : assertOwned cur clientId with
      | some e2 => simp [cancelAppointment, hfind, hown]
      | none => simp [cancelAppointment, hfind, hown] at h

/-- C2 witness: cancelling a missing appointment id in the concrete store
`wState` fails and leaves the persisted state unchanged. -/
theorem failed_commands_change_nothing_witness :
    (cancelAppointment wState "alice" 99 "zz").2 = wState := by
  have h := failed_commands_change_nothing wState "alice" "n1" 99 wInputFree
    "zz" "t1" 2100 2160 .checkIn .notFound
  exact h.2.2.2.2 (by decide)

theorem head_type_append {l : List AuditEvent} {ev : AuditEvent}
    (h : l.head?.map (·.type) = some .created) :
    (l ++ [ev]).head?.map (·.type) = some .created := by
  cases l with
  | nil => simp at h
  | cons a rest => simpa using h

theorem firstAuditCreated_append {appts : List Appointment} {cand : Appointment}
    (hfac : FirstAuditCreated appts)
    (hcand : cand.audit.head?.map (·.type) = some .created) :
    FirstAuditCreated (appts ++ [cand]) := by
  intro x hx
  rw [List.mem_append, List.mem_singleton] at hx
  rcases hx with hx | hx
  · exact hfac x hx
  · subst hx; exact hcand

theorem firstAuditCreated_replace {appts : List Appointment} {cand : Appointment}
    {id : String}
    (hfac : FirstAuditCreated appts)
    (hcand : cand.audit.head?.map (·.type) = some .created) :
    FirstAuditCreated (appts.map fun a => if a.id == id then cand else a) := by
  intro x hx
  rw [List.mem_map] at hx
  obtain ⟨a, ha, hx⟩ := hx
  by_cases hid : a.id = id
  · simp only [hid, beq_self_eq_true, if_true] at hx
    subst hx; exact hcand
  · simp only [beq_iff_eq, hid, if_false, reduceIte] at hx
    subst hx; exact hfac a ha

/-- C3: every successful mutating command increments the store version by
exactly 1, sets `updatedAt` to the commit time, and appends exactly one
audit event to the target appointment's trail (for create, the trail is
initialized with exactly one `created` event); prior entries are kept as a
prefix, untouched, and the first entry of every trail is still `created`
afterwards. -/
theorem successful_commands_version_audit
    (state : StoredSchedulerState) (clientId newId : String) (now : Int)
    (input : CreateAppointmentInput) (id tid : String) (s e : Int)
    (status : AppointmentStatus)
    (hfac : FirstAuditCreated state.appointments) :
    (∀ r s', createAppointment state clientId newId now input = (.ok r, s') →
      s'.version = state.version + 1 ∧ s'.updatedAt = now ∧ r.updatedAt = now ∧
      s'.appointments = state.appointments ++ [r] ∧
      r.audit.map (·.type) = [.created] ∧
      FirstAuditCreated s'.appointments)
    ∧ (∀ cur, findAppointment state.appointments id = some cur →
      ∀ r s', rescheduleAppointment state clientId now id s e = (.ok r, s') →
        s'.version = state.version + 1 ∧ s'.updatedAt = now ∧ r.updatedAt = now ∧
        s'.appointments = state.appointments.map (fun a => if a.id == id then r else a) ∧
        (∃ ev, r.audit = cur.audit ++ [ev] ∧ ev.type = .rescheduled) ∧
        FirstAuditCreated s'.appointments)
    ∧ (∀ cur, findAppointment state.appointments id = some cur →
      ∀ r s', reassignAppointment state clientId now id tid = (.ok r, s') →
        s'.version = state.version + 1 ∧ s'.updatedAt = now ∧ r.updatedAt = now ∧
        s'.appointments = state.appointments.map (fun a => if a.id == id then r else a) ∧
        (∃ ev, r.audit = cur.audit ++ [ev] ∧ ev.type = .rescheduled) ∧
        FirstAuditCreated s'.appointments)
    ∧ (∀ cur, findAppointment state.appointments id = some cur →
      ∀ r s', updateAppointmentStatus state clientId now id status = (.ok r, s') →
        s'.version = state.version + 1 ∧ s'.updatedAt = now ∧ r.updatedAt = now ∧
        s'.appointments = state.appointments.map (fun a => if a.id == id then r else a) ∧
        (∃ ev, r.audit = cur.audit ++ [ev] ∧ ev.type = .statusChange) ∧
        FirstAuditCreated s'.appointments)
    ∧ (∀ cur, findAppointment state.appointments id = some cur →
      ∀ r s', cancelAppointment state clientId now id = (.ok r, s') →
        s'.version = state.version + 1 ∧ s'.updatedAt = now ∧ r.updatedAt = now ∧
        s'.appointments = state.appointments.map (fun a => if a.id == id then r else a) ∧
        (∃ ev, r.audit = cur.audit ++ [ev] ∧ ev.type = .cancelled) ∧
        FirstAuditCreated s'.appointments) := by
  have hcreatedHead : ∀ cur : Appointment, cur ∈ state.appointments →
      ∀ ev : AuditEvent, (cur.audit ++ [ev]).head?.map (·.type) = some .created :=
    fun cur hmem ev => head_type_append (hfac cur hmem)
  refine ⟨?_, ?_, ?_, ?_, ?_⟩
  · intro r s' h
    by_cases hconf : hasOverlapConflict state.appointments
      (createCandidate clientId newId now input) = true
    · simp [createAppointment, hconf] at h
    · rw [Bool.not_eq_true] at hconf
      simp only [createAppointment, hconf, Bool.false_eq_true, if_false,
        Prod.mk.injEq, Except.ok.injEq] at h
      obtain ⟨h1, h2⟩ := h
      subst h1; subst h2
      refine ⟨rfl, rfl, rfl, rfl, rfl, ?_⟩
      exact firstAuditCreated_append hfac rfl
  · intro cur hfind r s' h
    cases hown : assertOwned cur clientId with
    | some e2 => simp [rescheduleAppointment, hfind, hown] at h
    | none =>
      by_cases hconf : hasOverlapConflict state.appointments
        (rescheduleCandidate cur clientId now s e) = true
      · simp [rescheduleAppointment, hfind, hown, hconf] at h
      · rw [Bool.not_eq_true] at hconf
        simp only [rescheduleAppointment, hfind, hown, hconf, Bool.false_eq_true,
          if_false, Prod.mk.injEq, Except.ok.injEq] at h
        obtain ⟨h1, h2⟩ := h
        subst h1; subst h2
        refine ⟨rfl, rfl, rfl, rfl, ⟨_, rfl, rfl⟩, ?_⟩
        exact firstAuditCreated_replace hfac
          (hcreatedHead cur (findAppointment_mem hfind) _)
  · intro cur hfind r s' h
    cases hown : assertOwned cur clientId with
    | some e2 => simp [reassignAppointment, hfind, hown] at h
    | none =>
      by_cases hconf : hasOverlapConflict state.appointments
        (reassignCandidate cur clientId now tid) = true
      · simp [reassignAppointment, hfind, hown, hconf] at h
      · rw [Bool.not_eq_true] at hconf
        simp only [reassignAppointment, hfind, hown, hconf, Bool.false_eq_true,
          if_false, Prod.mk.injEq, Except.ok.injEq] at h
        obtain ⟨h1, h2⟩ := h
        subst h1; subst h2
        refine ⟨rfl, rfl, rfl, rfl, ⟨_, rfl, rfl⟩, ?_⟩
        exact firstAuditCreated_replace hfac
          (hcreatedHead cur (findAppointment_mem hfind) _)
  · intro cur hfind r s' h
    cases hown : assertOwned cur clientId with
    | some e2 => simp [updateAppointmentStatus, hfind, hown] at h
    | none =>
      simp only [updateAppointmentStatus, hfind, hown, Prod.mk.injEq,
        Except.ok.injEq] at h
      obtain ⟨h1, h2⟩ := h
      subst h1; subst h2
      refine ⟨rfl, rfl, rfl, rfl, ⟨_, rfl, rfl⟩, ?_⟩
      exact firstAuditCreated_replace hfac
        (hcreatedHead cur (findAppointment_mem hfind) _)
  · intro cur hfind r s' h
    cases hown : assertOwned cur clientId with
    | some e2 => simp [cancelAppointment, hfind, hown] at h
    | none =>
      simp only [cancelAppointment, hfind, hown, Prod.mk.injEq,
        Except.ok.injEq] at h
      obtain ⟨h1, h2⟩ := h
      subst h1; subst h2
      refine ⟨rfl, rfl, rfl, rfl, ⟨_, rfl, rfl⟩, ?_⟩
      exact firstAuditCreated_replace hfac
        (hcreatedHead cur (findAppointment_mem hfind) _)

/-- C1 witness: creating the non-conflicting `wInputFree` on `wState`
succeeds and the committed list satisfies the no-overlap invariant. -/
theorem mutating_commands_enforce_no_overlap_witness :
    NoOverlapInv (wState.appointments ++ [createCandidate "bob" "n1" 50 wInputFree]) := by
  have h := mutating_commands_enforce_no_overlap wState "bob" "n1" 50 wInputFree
    "a1" "t1" 2100 2160 (by decide)
  exact h.1 (createCandidate "bob" "n1" 50 wInputFree)
    { version := 2, updatedAt := 50,
      appointments := wState.appointments ++ [createCandidate "bob" "n1" 50 wInputFree] }
    (by decide)

/-- The state committed by the C3 witness reschedule. -/
def wRes : StoredSchedulerState :=
  { version := 2, updatedAt := 99,
    appointments := wState.appointments.map
      (fun a => if a.id == "a1" then rescheduleCandidate wAppt "alice" 99 2100 2160 else a) }

/-- C3 witness: `alice` reschedules her own appointment `a1`; the version
increments by 1, `updatedAt` is set, exactly one `rescheduled` event is
appended, and every trail still starts with `created`. -/
theorem successful_commands_version_audit_witness :
    wRes.version = wState.version + 1 ∧ wRes.updatedAt = 99 ∧
    (rescheduleCandidate wAppt "alice" 99 2100 2160).updatedAt = 99 ∧
    wRes.appointments = wState.appointments.map
      (fun a => if a.id == "a1" then rescheduleCandidate wAppt "alice" 99 2100 2160 else a) ∧
    (∃ ev, (rescheduleCandidate wAppt "alice" 99 2100 2160).audit = wAppt.audit ++ [ev] ∧
      ev.type = .rescheduled) ∧
    FirstAuditCreated wRes.appointments := by
  have h := successful_commands_version_audit wState "alice" "n1" 99 wInputFree
    "a1" "t1" 2100 2160 .checkIn (by decide)
  exact h.2.1 wAppt (by decide) (rescheduleCandidate wAppt "alice" 99 2100 2160) wRes (by decide)

/-- C4 counterexample: `a3` is `completed` (a terminal state, with an empty
allowed-successor set), yet `updateAppointmentStatus` back to `scheduled`
succeeds, changes the status, and commits a new version — the store never
consults the transition table. -/
theorem updateStatus_illegal_transition_accepted :
    (AppointmentStatus.scheduled ∈ nextAllowedStatuses .completed → False) ∧
    (updateAppointmentStatus wState "alice" 50 "a3" .scheduled).1.toOption.map (·.status)
      = some .scheduled ∧
    (updateAppointmentStatus wState "alice" 50 "a3" .scheduled).2.version
      = wState.version + 1 :=
  ⟨by decide, by decide, by decide⟩

theorem assertOwned_not_owner {cur : Appointment} {clientId : String}
    (h : cur.createdBy ≠ clientId) :
    assertOwned cur clientId = some .ownershipViolation := by
  simp [assertOwned, h]

theorem assertOwned_cancelled {cur : Appointment} {clientId : String}
    (h1 : cur.createdBy = clientId) (h2 : cur.cancelledAt.isSome = true) :
    assertOwned cur clientId = some .alreadyCancelled := by
  simp [assertOwned, h1, h2]

/-- C4 (amended): the lifecycle table marks `completed` and `incomplete`
as terminal, but only the UI consults it; the store command
`updateAppointmentStatus` applies any requested status — once the
find / ownership / not-cancelled checks pass it succeeds and sets the
status to the requested value, whether or not the transition is in the
table. -/
theorem updateStatus_applies_any_status
    (state : StoredSchedulerState) (clientId : String) (now : Int) (id : String)
    (status : AppointmentStatus) :
    (∀ cur, findAppointment state.appointments id = some cur →
      cur.createdBy = clientId → cur.cancelledAt = none →
      (updateAppointmentStatus state clientId now id status).1 =
        .ok (statusCandidate cur clientId now status) ∧
      (statusCandidate cur clientId now status).status = status)
    ∧ nextAllowedStatuses .completed = [] ∧ nextAllowedStatuses .incomplete = [] := by
  refine ⟨?_, rfl, rfl⟩
  intro cur hfind h1 h2
  have hown := assertOwned_of_checks h1 h2
  exact ⟨by simp [updateAppointmentStatus, hfind, hown], rfl⟩

/-- C4 amended-theorem witness: the concrete illegal `completed →
scheduled` request on `a3` goes through. -/
theorem updateStatus_applies_any_status_witness :
    (updateAppointmentStatus wState "alice" 50 "a3" .scheduled).1 =
      .ok (statusCandidate wCompleted "alice" 50 .scheduled) := by
  have h := updateStatus_applies_any_status wState "alice" 50 "a3" .scheduled
  exact (h.1 wCompleted (by decide) (by decide) (by decide)).1

/-- C5: every record-targeting command checks, in order: the appointment
must exist (`NotFound`), the acting session must be its creator
(`OwnershipViolation`), and it must not already be cancelled
(`AlreadyCancelled`); each failure leaves the state untouched, so a second
cancel of an already-cancelled appointment fails and never appends a
second `cancelled` audit event. -/
theorem record_commands_check_precedence
    (state : StoredSchedulerState) (clientId : String) (now : Int) (id tid : String)
    (s e : Int) (status : AppointmentStatus) :
    (findAppointment state.appointments id = none →
      rescheduleAppointment state clientId now id s e = (.error .notFound, state) ∧
      reassignAppointment state clientId now id tid = (.error .notFound, state) ∧
      updateAppointmentStatus state clientId now id status = (.error .notFound, state) ∧
      cancelAppointment state clientId now id = (.error .notFound, state))
    ∧ (∀ cur, findAppointment state.appointments id = some cur →
      cur.createdBy ≠ clientId →
      rescheduleAppointment state clientId now id s e = (.error .ownershipViolation, state) ∧
      reassignAppointment state clientId now id tid = (.error .ownershipViolation, state) ∧
      updateAppointmentStatus state clientId now id status = (.error .ownershipViolation, state) ∧
      cancelAppointment state clientId now id = (.error .ownershipViolation, state))
    ∧ (∀ cur, findAppointment state.appointments id = some cur →
      cur.createdBy = clientId → cur.cancelledAt.isSome = true →
      rescheduleAppointment state clientId now id s e = (.error .alreadyCancelled, state) ∧
      reassignAppointment state clientId now id tid = (.error .alreadyCancelled, state) ∧
      updateAppointmentStatus state clientId now id status = (.error .alreadyCancelled, state) ∧
      cancelAppointment state clientId now id = (.error .alreadyCancelled, state)) := by
  refine ⟨?_, ?_, ?_⟩
  · intro hfind
    refine ⟨?_, ?_, ?_, ?_⟩ <;>
      simp [rescheduleAppointment, reassignAppointment, updateAppointmentStatus,
        cancelAppointment, hfind]
  · intro cur hfind hneq
    have hown := assertOwned_not_owner hneq
    refine ⟨?_, ?_, ?_, ?_⟩ <;>
      simp [rescheduleAppointment, reassignAppointment, updateAppointmentStatus,
        cancelAppointment, hfind, hown]
  · intro cur hfind h1 h2
    have hown := assertOwned_cancelled h1 h2
    refine ⟨?_, ?_, ?_, ?_⟩ <;>
      simp [rescheduleAppointment, reassignAppointment, updateAppointmentStatus,
        cancelAppointment, hfind, hown]

/-- C5 witness: cancelling the already-cancelled `a2` fails
`AlreadyCancelled` and leaves the store exactly as it was — in particular
no second `cancelled` audit entry exists anywhere. -/
theorem record_commands_check_precedence_witness :
    cancelAppointment wState "alice" 99 "a2" = (.error .alreadyCancelled, wState) := by
  have h := record_commands_check_precedence wState "alice" 99 "a2" "t1" 2100 2160 .checkIn
  exact (h.2.2 wCancelled (by decide) (by decide) (by decide)).2.2.2

/-- C6: the interval overlap predicate is exactly the half-open test
`startA < endB ∧ endA > startB`; touching intervals (09:00–10:00 vs
10:00–11:00, i.e. minutes 540–600 vs 600–660) do not overlap. -/
theorem overlaps_is_half_open :
    (∀ a b c d : Int, overlaps a b c d = true ↔ a < d ∧ b > c) ∧
    overlaps 540 600 600 660 = false :=
  ⟨overlaps_iff, by decide⟩
/-- C7: `canScheduleWindow` is total (it returns a structured decision and
never throws) and its failure reason follows the strict priority order:
resource not found, then outside working hours, then time-away conflict,
then slot-lock overlap, then overlap with an existing non-cancelled
appointment (excluding the optional ignored id); if none applies it
returns ok. Each case below characterises exactly when each outcome is
produced. -/
theorem canScheduleWindow_priority (tid : String) (s e : Int)
    (appts : List Appointment) (locks : List SlotLock)
    (ctx : AvailabilityContext) (ignore : Option String) :
    (canScheduleWindow tid s e appts locks ctx ignore = .fail "Therapist not found"
      ↔ ctx.therapists.find? (fun t => t.id == tid) = none)
    ∧ (canScheduleWindow tid s e appts locks ctx ignore = .fail "Outside working hours"
      ↔ ∃ th, ctx.therapists.find? (fun t => t.id == tid) = some th ∧
          withinTherapistWorkingHours th s e = false)
    ∧ (canScheduleWindow tid s e appts locks ctx ignore = .fail "Time off"
      ↔ ∃ th, ctx.therapists.find? (fun t => t.id == tid) = some th ∧
          withinTherapistWorkingHours th s e = true ∧
          hasTimeAwayConflict tid s e ctx.timeAway = true)
    ∧ (canScheduleWindow tid s e appts locks ctx ignore = .fail "Slot locked by another user"
      ↔ ∃ th, ctx.therapists.find? (fun t => t.id == tid) = some th ∧
          withinTherapistWorkingHours th s e = true ∧
          hasTimeAwayConflict tid s e ctx.timeAway = false ∧
          slotOverlapsLocks tid s e locks = true)
    ∧ (canScheduleWindow tid s e appts locks ctx ignore = .fail "Overlapping appointment"
      ↔ ∃ th, ctx.therapists.find? (fun t => t.id == tid) = some th ∧
          withinTherapistWorkingHours th s e = true ∧
          hasTimeAwayConflict tid s e ctx.timeAway = false ∧
          slotOverlapsLocks tid s e locks = false ∧
          hasAppointmentOverlap appts tid s e ignore = true)
    ∧ (canScheduleWindow tid s e appts locks ctx ignore = .ok
      ↔ ∃ th, ctx.therapists.find? (fun t => t.id == tid) = some th ∧
          withinTherapistWorkingHours th s e = true ∧
          hasTimeAwayConflict tid s e ctx.timeAway = false ∧
          slotOverlapsLocks tid s e locks = false ∧
          hasAppointmentOverlap appts tid s e ignore = false) := by
  cases hf : ctx.therapists.find? (fun t => t.id == tid) with
  | none => simp [canScheduleWindow, hf]
  | some th =>
    cases hw : withinTherapistWorkingHours th s e <;>
      cases ha : hasTimeAwayConflict tid s e ctx.timeAway <;>
        cases hl : slotOverlapsLocks tid s e locks <;>
          cases ho : hasAppointmentOverlap appts tid s e ignore <;>
            simp [canScheduleWindow, hf, hw, ha, hl, ho]

/-- C8: lock derivation for a session emits exactly one lock per
non-cancelled appointment created by a different session — carrying that
appointment's resource id, window and `lockedBy = createdBy` — and no
lock for cancelled or own appointments, so no derived lock is owned by
the deriving session. `getLocksForRange` and the store's `buildLocks` are
the same function. -/
theorem lock_derivation_spec (appts : List Appointment) (sess : String) :
    getLocksForRange appts sess = buildLocks appts sess
    ∧ (∀ l ∈ buildLocks appts sess, l.lockedBy ≠ sess)
    ∧ (buildLocks appts sess).length =
        ((appts.filter (fun a => !a.cancelledAt.isSome)).filter
          (fun a => a.createdBy != sess)).length
    ∧ (∀ a ∈ appts, a.cancelledAt = none → a.createdBy ≠ sess →
        mkLock a ∈ buildLocks appts sess)
    ∧ (∀ l ∈ buildLocks appts sess, ∃ a, a ∈ appts ∧ a.cancelledAt = none ∧
        a.createdBy ≠ sess ∧ l = mkLock a)
    ∧ (∀ a : Appointment, (mkLock a).therapistId = a.therapistId ∧
        (mkLock a).start = a.start ∧ (mkLock a).«end» = a.«end» ∧
        (mkLock a).lockedBy = a.createdBy) := by
  refine ⟨rfl, ?_, ?_, ?_, ?_, fun a => ⟨rfl, rfl, rfl, rfl⟩⟩
  · intro l hl
    unfold buildLocks at hl
    rw [List.mem_map] at hl
    obtain ⟨a, ha, hla⟩ := hl
    rw [List.mem_filter] at ha
    subst hla
    simpa [mkLock] using ha.2
  · unfold buildLocks
    rw [List.length_map]
  · intro a ha hcanc howner
    unfold buildLocks
    rw [List.mem_map]
    refine ⟨a, ?_, rfl⟩
    rw [List.mem_filter, List.mem_filter]
    simp [ha, hcanc, howner]
  · intro l hl
    unfold buildLocks at hl
    rw [List.mem_map] at hl
    obtain ⟨a, ha, hla⟩ := hl
    rw [List.mem_filter, List.mem_filter] at ha
    refine ⟨a, ha.1.1, ?_, ?_, hla.symm⟩
    · have h2 := ha.1.2
      rw [Bool.not_eq_eq_eq_not, Bool.not_true] at h2
      cases hc : a.cancelledAt with
      | none => rfl
      | some t => rw [hc] at h2; simp at h2
    · simpa using ha.2

/-- C8 witness: deriving locks for session `carol` from the concrete list
`[wAppt]` (created by `alice`, non-cancelled) yields the corresponding
lock. -/
theorem lock_derivation_spec_witness :
    mkLock wAppt ∈ buildLocks [wAppt] "carol" := by
  have h := lock_derivation_spec [wAppt] "carol"
  exact h.2.2.2.1 wAppt (by decide) (by decide) (by decide)

theorem adjacentConflicts_eq_nil :
    ∀ l : List Appointment, adjacentConflicts l = [] →
      l.Chain' (fun x y => overlaps x.start x.«end» y.start y.«end» = false) := by
  intro l
  induction l with
  | nil => intro _; exact List.chain'_nil
  | cons a tail ih =>
    cases tail with
    | nil => intro _; exact List.chain'_singleton a
    | cons b rest =>
      intro h
      rw [adjacentConflicts] at h
      obtain ⟨h1, h2⟩ := List.append_eq_nil.mp h
      rw [List.chain'_cons]
      refine ⟨?_, ih h2⟩
      by_cases hov : overlaps a.start a.«end» b.start b.«end» = true
      · rw [if_pos hov] at h1; simp at h1
      · exact Bool.not_eq_true _ |>.mp hov

theorem sorted_chain_separated :
    ∀ l : List Appointment,
      l.Pairwise (fun x y => x.start ≤ y.start) →
      (∀ x ∈ l, x.start < x.«end») →
      l.Chain' (fun x y => overlaps x.start x.«end» y.start y.«end» = false) →
      l.Pairwise (fun x y => x.«end» ≤ y.start) := by
  intro l
  induction l with
  | nil => intro _ _ _; exact List.Pairwise.nil
  | cons a tail ih =>
    intro hsort hpos hchain
    cases tail with
    | nil => exact List.pairwise_singleton _ a
    | cons b rest =>
      rw [List.pairwise_cons] at hsort
      rw [List.chain'_cons] at hchain
      have hab : a.«end» ≤ b.start := by
        have h1 : a.start < b.«end» :=
          lt_of_le_of_lt (hsort.1 b (List.mem_cons_self b rest))
            (hpos b (List.mem_cons_of_mem a (List.mem_cons_self b rest)))
        have hov : ¬(a.start < b.«end» ∧ a.«end» > b.start) := by
          rw [← overlaps_iff]
          simp [hchain.1]
        omega
      rw [List.pairwise_cons]
      refine ⟨?_, ih hsort.2 (fun x hx => hpos x (List.mem_cons_of_mem a hx)) hchain.2⟩
      intro y hy
      rcases List.mem_cons.mp hy with hy | hy
      · subst hy; exact hab
      · have hby : b.start ≤ y.start := List.rel_of_pairwise_cons hsort.2 hy
        omega

theorem separated_no_overlap {l : List Appointment}
    (h : l.Pairwise (fun x y => x.«end» ≤ y.start)) :
    l.Pairwise (fun x y => overlaps x.start x.«end» y.start y.«end» = false) := by
  refine h.imp ?_
  intro x y hle
  rw [← Bool.not_eq_true, overlaps_iff]
  omega

/-- C9 (amended): the adjacent-pair scan flags both members of every
overlapping **adjacent** pair, and — provided every non-cancelled
appointment has `start < end` — an empty conflict set implies that no two
distinct non-cancelled appointments of the same resource overlap (if no
adjacent pair in sorted order overlaps, no pair overlaps). It does *not*
flag every appointment involved in some overlap: a non-adjacent overlap
can leave one member unflagged (see the counterexample). -/
theorem detectConflicts_empty_sound
    (appts : List Appointment)
    (hpos : ∀ a ∈ appts, a.cancelledAt = none → a.start < a.«end»)
    (hempty : detectConflicts appts = []) :
    NoOverlapInv appts := by
  intro x hx y hy hid hxc hyc hxt
  rw [detectConflicts, List.flatMap_eq_nil_iff] at hempty
  have hxactive : x ∈ appts.filter (fun a => !a.cancelledAt.isSome) := by
    rw [List.mem_filter]
    exact ⟨hx, by simp [hxc]⟩
  have hyactive : y ∈ appts.filter (fun a => !a.cancelledAt.isSome) := by
    rw [List.mem_filter]
    exact ⟨hy, by simp [hyc]⟩
  have htid : x.therapistId ∈
      ((appts.filter (fun a => !a.cancelledAt.isSome)).map (·.therapistId)).dedup := by
    rw [List.mem_dedup, List.mem_map]
    exact ⟨x, hxactive, rfl⟩
  have hgroup := hempty x.therapistId htid
  set group := (appts.filter (fun a => !a.cancelledAt.isSome)).filter
    (fun a => a.therapistId == x.therapistId) with hgroupdef
  have hxg : x ∈ List.insertionSort apptLe group := by
    rw [List.mem_insertionSort, hgroupdef, List.mem_filter]
    exact ⟨hxactive, by simp⟩
  have hyg : y ∈ List.insertionSort apptLe group := by
    rw [List.mem_insertionSort, hgroupdef, List.mem_filter]
    exact ⟨hyactive, by simp [hxt]⟩
  have hsorted : (List.insertionSort apptLe group).Pairwise
      (fun a b => a.start ≤ b.start) :=
    (List.sorted_insertionSort apptLe group).imp (fun hab => hab)
  have hposg : ∀ a ∈ List.insertionSort apptLe group, a.start < a.«end» := by
    intro a ha
    rw [List.mem_insertionSort, hgroupdef, List.mem_filter] at ha
    have ham := List.mem_filter.mp ha.1
    refine hpos a ham.1 ?_
    have h2 := ham.2
    rw [Bool.not_eq_eq_eq_not, Bool.not_true] at h2
    cases hc : a.cancelledAt with
    | none => rfl
    | some t => rw [hc] at h2; simp at h2
  have hchain := adjacentConflicts_eq_nil _ hgroup
  have hsep := sorted_chain_separated _ hsorted hposg hchain
  have hnoov := separated_no_overlap hsep
  have hsymm : Symmetric
      (fun a b : Appointment => overlaps a.start a.«end» b.start b.«end» = false) := by
    intro a b hab
    rw [overlaps_comm]
    exact hab
  have hne : x ≠ y := fun hcontr => hid (by rw [hcontr])
  exact hnoov.forall hsymm hxg hyg hne

/-- C9 witness: the three concrete appointments `cApptA`, `cApptB`,
`cApptC` minus the spanning one are overlap-free, so the detector on the
remaining pair-free list is empty and the amended soundness theorem
applies. -/
theorem detectConflicts_empty_sound_witness :
    NoOverlapInv [cApptB, cApptC] :=
  detectConflicts_empty_sound [cApptB, cApptC] (by decide) (by decide)

/-- C9 counterexample: `cApptA` (10:00 span 1000–1100) overlaps both
`cApptB` (1001–1002) and `cApptC` (1003–1004) on the same resource, but
only the adjacent pair (A, B) is flagged: `cApptC` overlaps `cApptA`
and is missing from the conflict set, refuting "every appointment that
overlaps some other non-cancelled appointment with the same resource id
appears in the returned conflict set". -/
theorem detectConflicts_misses_nonadjacent_overlap :
    overlaps cApptA.start cApptA.«end» cApptC.start cApptC.«end» = true ∧
    cApptA.therapistId = cApptC.therapistId ∧
    cApptA.cancelledAt = none ∧ cApptC.cancelledAt = none ∧
    cApptA.id ≠ cApptC.id ∧
    (cApptC.id ∈ detectConflicts [cApptA, cApptB, cApptC] → False) :=
  ⟨by decide, by decide, by decide, by decide, by decide, by decide⟩

/-- C10 (amended): the store's `createAppointment` has exactly one failure
mode — `OverlapConflict`, raised precisely when the candidate overlaps
another non-cancelled appointment on its resource; the store performs no
resource lookup at all. Resource existence is checked only by the
pre-flight validator `canScheduleWindow`, which reports
"Therapist not found" for an unknown resource id. -/
theorem createAppointment_failure_modes
    (state : StoredSchedulerState) (clientId newId : String) (now : Int)
    (input : CreateAppointmentInput) (err : StoreError)
    (tid : String) (s e : Int) (appts : List Appointment) (locks : List SlotLock)
    (ctx : AvailabilityContext) (ignore : Option String) :
    ((createAppointment state clientId newId now input).1 = .error err ↔
      (err = .overlapConflict ∧ hasOverlapConflict state.appointments
        (createCandidate clientId newId now input) = true))
    ∧ (ctx.therapists.find? (fun t => t.id == tid) = none →
        canScheduleWindow tid s e appts locks ctx ignore = .fail "Therapist not found") := by
  constructor
  · by_cases hconf : hasOverlapConflict state.appointments
      (createCandidate clientId newId now input) = true
    · simp [createAppointment, hconf, eq_comm]
    · rw [Bool.not_eq_true] at hconf
      simp [createAppointment, hconf]
  · intro hf
    simp [canScheduleWindow, hf]

/-- C10 amended-theorem witness: the conflicting request `wInputClash`
fails with the overlap error, obtained through the characterisation. -/
theorem createAppointment_failure_modes_witness :
    (createAppointment wState "bob" "n3" 70 wInputClash).1 = .error .overlapConflict := by
  have h := createAppointment_failure_modes wState "bob" "n3" 70 wInputClash
    .overlapConflict "t9" 1980 2040 [] [] { therapists := therapists, timeAway := [] } none
  exact h.1.mpr ⟨rfl, by decide⟩

/-- C10 counterexample: `wInputGhost` names resource `t9`, which no known
therapist has, yet `createAppointment` succeeds and returns the new
appointment instead of failing with a resource-not-found error (the
store's error type has no such case). -/
theorem create_unknown_resource_succeeds :
    therapists.all (fun t => t.id != wInputGhost.therapistId) = true ∧
    (createAppointment wState "bob" "n2" 60 wInputGhost).1 =
      .ok (createCandidate "bob" "n2" 60 wInputGhost) :=
  ⟨by decide, by decide⟩
